import Mathlib

/-!
Shallow embedding of the go-resilience policy composition engine
(policy.go, retry.go, circuitbreaker.go, config.go, provider code) together
with the parts of its third-party dependencies (sony/gobreaker and
cenkalti/backoff/v4) that the package wires in.  Machine integers are
modelled as Nat/Int with the explicit bounds the Go code checks; fallible
code returns Except or Option; the mutable breaker plus the invocation
counter of the wrapped operation form an explicit World state that every
guard threads through.
-/

namespace GoResilience

/-- Result payload of an operation (Go value of type any; opaque here). -/
abbrev Val := Nat

/-- Go error values reachable in this package: the two gobreaker rejection
errors, context errors, the timeout-guard conversion of a panic, plain
caller errors, the backoff permanent-error marker, and a generic
fmt.Errorf style wrapper carrying a tag and a wrapped cause. -/
inductive GoErr where
  | openState
  | tooManyRequests
  | deadlineExceeded
  | contextCanceled
  | panicked
  | opError (code : Nat)
  | permanentErr (e : GoErr)
  | wrapped (tag : Nat) (e : GoErr)
deriving DecidableEq, Repr

/-- Model of the Unwrap step of the Go errors package on the error shapes
above: the permanent marker and the generic wrapper expose their cause. -/
def unwrapErr : GoErr → Option GoErr
  | .permanentErr e => some e
  | .wrapped _ e => some e
  | _ => none

/-- Model of errors.Is: compare against the target at every level of the
unwrap chain. -/
def errIs : GoErr → GoErr → Bool
  | .permanentErr e, t => (GoErr.permanentErr e = t) || errIs e t
  | .wrapped n e, t => (GoErr.wrapped n e = t) || errIs e t
  | e, t => e = t

/-- The unwrap chain of an error, listing the error itself and every cause
reachable by unwrapping. -/
def errChain : GoErr → List GoErr
  | .permanentErr e => .permanentErr e :: errChain e
  | .wrapped n e => .wrapped n e :: errChain e
  | e => [e]

/-- Model of errors.As specialised to the backoff PermanentError target:
find the first permanent marker in the unwrap chain and return its cause. -/
def asPermanent : GoErr → Option GoErr
  | .permanentErr e => some e
  | .wrapped _ e => asPermanent e
  | _ => none

/-- IsErrorPermanent from circuitbreaker.go: a Go error is nil (none) or a
value; the predicate is errors.Is against the two rejection errors. -/
def IsErrorPermanent : Option GoErr → Bool
  | none => false
  | some e => errIs e .openState || errIs e .tooManyRequests

/-! ## Duration resolver (parseDuration in the provider code) -/

/-- 2^63, the bound the Go time.ParseDuration overflow checks use. -/
def b63 : Nat := 9223372036854775808

/-- Numeric value of a digit character. -/
def digitVal (c : Char) : Nat := c.toNat - 48

/-- Model of the digit-accumulation loop of Go time.leadingInt restricted
to a list that is already all digits: fails (none) on overflow past 2^63,
checking 2^63/10 before the multiply exactly as the Go loop does. -/
def intAccOk : Nat → List Char → Option Nat
  | x, [] => some x
  | x, c :: r =>
    if x > 922337203685477580 then none
    else
      let y := x * 10 + digitVal c
      if y > b63 then none else intAccOk y r

/-- Model of Go time.leadingFraction on a list of digits: accumulates the
fraction value and its decimal scale, silently stopping (overflow flag) once
the value would overflow, exactly as the Go loop does. -/
def fracAcc : Nat → Nat → Bool → List Char → Nat × Nat
  | x, sc, _, [] => (x, sc)
  | x, sc, true, _ :: r => fracAcc x sc true r
  | x, sc, false, c :: r =>
    if x > 922337203685477580 then fracAcc x sc true r
    else
      let y := x * 10 + digitVal c
      if y > b63 then fracAcc x sc true r
      else fracAcc y (sc * 10) false r

/-- Unit table of Go time.ParseDuration, scales in nanoseconds. -/
def unitScale : List Char → Option Nat
  | ['n', 's'] => some 1
  | ['u', 's'] => some 1000
  | ['µ', 's'] => some 1000
  | ['μ', 's'] => some 1000
  | ['m', 's'] => some 1000000
  | ['s'] => some 1000000000
  | ['m'] => some 60000000000
  | ['h'] => some 3600000000000
  | _ => none

/-- Character class ending a unit token in Go time.ParseDuration. -/
def isNumChar (c : Char) : Bool := c = '.' || c.isDigit

/-- The optional-fraction step of the Go time.ParseDuration loop: consume
a dot followed by digits when present, yielding the fraction value, its
decimal scale, the remaining input, and whether fraction digits were
consumed. -/
def fracSplit (s1 : List Char) : Nat × Nat × List Char × Bool :=
  match s1 with
  | '.' :: r1 =>
    let fs := r1.takeWhile Char.isDigit
    let p := fracAcc 0 1 false fs
    (p.1, p.2, r1.dropWhile Char.isDigit, ¬ fs.isEmpty)
  | _ => (0, 1, s1, false)

/-- One iteration of the Go time.ParseDuration loop: parse one
number-with-optional-fraction-and-unit chunk, returning the updated
accumulated duration (in ns) and the remaining input, or none on any of
the malformed-input or overflow conditions the Go loop checks.  Go
computes the fraction contribution with float64 arithmetic; this model
uses exact natural division, which agrees on every input without a
fractional part and never affects the accept/reject shape of the grammar. -/
def chunkStep (s : List Char) (d : Nat) : Option (Nat × List Char) :=
  match s with
  | [] => none
  | c :: _ =>
    if ¬ isNumChar c then none
    else
      let ds := s.takeWhile Char.isDigit
      let s1 := s.dropWhile Char.isDigit
      match intAccOk 0 ds with
      | none => none
      | some v =>
        let fr := fracSplit s1
        if ds.isEmpty ∧ ¬ fr.2.2.2 then none
        else
          let u := fr.2.2.1.takeWhile (fun c => ¬ isNumChar c)
          let s3 := fr.2.2.1.dropWhile (fun c => ¬ isNumChar c)
          if u.isEmpty then none
          else match unitScale u with
          | none => none
          | some unit =>
            if v > b63 / unit then none
            else
              let v1 := v * unit
              let v2 := if 0 < fr.1 then v1 + fr.1 * unit / fr.2.1 else v1
              if 0 < fr.1 ∧ b63 < v2 then none
              else if b63 < d + v2 then none
              else some (d + v2, s3)

/-- The chunk loop of Go time.ParseDuration, fuel-indexed; each successful
chunk consumes at least one character, so fuel = length of the input plus
one suffices. -/
def parseChunks : Nat → List Char → Nat → Option Nat
  | 0, _, _ => none
  | _ + 1, [], d => some d
  | fuel + 1, s, d =>
    match chunkStep s d with
    | none => none
    | some (d2, s3) => parseChunks fuel s3 d2

/-- Strip the optional leading sign, as Go time.ParseDuration and
strconv.ParseInt both do; returns (negative?, rest). -/
def stripSign : List Char → Bool × List Char
  | '-' :: r => (true, r)
  | '+' :: r => (false, r)
  | r => (false, r)

/-- Model of Go time.ParseDuration, producing nanoseconds as an Int. -/
def parseGoDuration (s : String) : Except String Int :=
  let p := stripSign s.data
  if p.2 = ['0'] then .ok 0
  else if p.2.isEmpty then .error "invalid duration"
  else
    match parseChunks (p.2.length + 1) p.2 0 with
    | none => .error "invalid duration"
    | some d =>
      if p.1 then .ok (-(d : Int))
      else if d > b63 - 1 then .error "invalid duration"
      else .ok (d : Int)

/-- Model of Go strconv.ParseInt with base 10 and bit size 64: an optional
sign followed by a nonempty digit string whose value fits in int64. -/
def parseGoInt (s : String) : Option Int :=
  let p := stripSign s.data
  if p.2.isEmpty then none
  else if p.2.all Char.isDigit then
    let v := p.2.foldl (fun a c => a * 10 + digitVal c) 0
    if p.1 then
      if v ≤ b63 then some (-(v : Int)) else none
    else
      if v ≤ b63 - 1 then some (v : Int) else none
  else none

/-- parseDuration from the provider code: empty means disabled (zero),
a bare integer is a count of microseconds, anything else goes to
time.ParseDuration. -/
def parseDuration (val : String) : Except String Int :=
  if val = "" then .ok 0
  else
    match parseGoInt val with
    | some i => .ok (i * 1000)
    | none => parseGoDuration val

/-- Modelled from the spec: acceptance of one chunk of a structured
duration expression, digits with an optional fraction followed by a known
unit; used only to state that the resolver rejects every other text. -/
def chunkShape (s : List Char) : Option (List Char) :=
  let ds := s.takeWhile Char.isDigit
  let s1 := s.dropWhile Char.isDigit
  let fr := fracSplit s1
  if ds.isEmpty ∧ ¬ fr.2.2.2 then none
  else
    let u := fr.2.2.1.takeWhile (fun c => ¬ isNumChar c)
    let s3 := fr.2.2.1.dropWhile (fun c => ¬ isNumChar c)
    if u.isEmpty then none
    else if (unitScale u).isSome then some s3 else none

/-- Modelled from the spec: fuel-indexed acceptance of a sequence of
structured-duration chunks. -/
def grammarChunks : Nat → List Char → Bool
  | 0, _ => false
  | _ + 1, [] => true
  | fuel + 1, s =>
    match chunkShape s with
    | none => false
    | some s3 => grammarChunks fuel s3

/-- Modelled from the spec: a structured duration expression, e.g. 100ms,
2s, 1000ns; an optional sign, then the literal 0 or a nonempty chunk
sequence. -/
def isDurationExpr (s : String) : Bool :=
  let p := stripSign s.data
  if p.2 = ['0'] then true
  else if p.2.isEmpty then false
  else grammarChunks (p.2.length + 1) p.2

/-- True exactly when an Except value is a success. -/
def exOk {ε α : Type} : Except ε α → Bool
  | .ok _ => true
  | .error _ => false

/-! ## Configuration and provider (config.go plus the provider code) -/

/-- Retry section of the configuration (config.go). -/
structure RetryCfg where
  duration : String
  maxRetries : Int
deriving DecidableEq, Repr

/-- CircuitBreaker section of the configuration (config.go). -/
structure CircuitBreakerCfg where
  maxRequests : Int
  interval : String
  timeout : String
  failures : Int
deriving DecidableEq, Repr

/-- PolicyNames of one target (config.go). -/
structure PolicyNames where
  timeout : String
  retry : String
  circuitBreaker : String
deriving DecidableEq, Repr

/-- Config (config.go); the Go maps are modelled as association lists. -/
structure Config where
  timeouts : List (String × String)
  retries : List (String × RetryCfg)
  circuitBreakers : List (String × CircuitBreakerCfg)
  targets : List (String × PolicyNames)
deriving DecidableEq, Repr

/-- The retry struct of retry.go: resolved delay (ns) and max retries. -/
structure RetryPol where
  duration : Int
  maxRetries : Int
deriving DecidableEq, Repr

/-- Resolved gobreaker settings as newCircuitBreaker wires them, after the
gobreaker constructor applied its defaults: maxRequests 0 becomes 1, a
nonpositive timeout becomes 60s, a nonpositive interval becomes 0 (never
clear), and the int config fields pass through a uint32 conversion. -/
structure BreakerCfg where
  maxRequests : Nat
  interval : Nat
  timeout : Nat
  failures : Nat
deriving DecidableEq, Repr

/-- newRetry from retry.go: parse the duration, keep maxRetries. -/
def newRetry (r : RetryCfg) : Except String RetryPol :=
  match parseDuration r.duration with
  | .error e => .error e
  | .ok d => .ok ⟨d, r.maxRetries⟩

/-- newCircuitBreaker from circuitbreaker.go: parse interval then timeout,
convert the int fields as Go uint32 conversions do (mod 2^32), and apply
the gobreaker constructor defaults.  The gobreaker internals are modelled
from the spec (section 4.3), since that library is not part of src. -/
def newCircuitBreaker (c : CircuitBreakerCfg) : Except String BreakerCfg :=
  match parseDuration c.interval with
  | .error e => .error e
  | .ok interval =>
    match parseDuration c.timeout with
    | .error e => .error e
    | .ok timeout =>
      let mr := (c.maxRequests.emod 4294967296).toNat
      .ok { maxRequests := if mr = 0 then 1 else mr
            interval := if interval ≤ 0 then 0 else interval.toNat
            timeout := if timeout ≤ 0 then 60000000000 else timeout.toNat
            failures := (c.failures.emod 4294967296).toNat }

/-- A resolved Policy value (policy.go): optional timeout duration (ns,
positive means enabled), optional retry, optional breaker. -/
structure PolicyM where
  timeout : Int
  retry : Option RetryPol
  circuitBreaker : Option BreakerCfg
deriving DecidableEq, Repr

/-- The Provider of the provider code, after configure resolved every
named definition. -/
structure ProviderM where
  timeouts : List (String × Int)
  retries : List (String × RetryPol)
  circuitBreakers : List (String × BreakerCfg)
  targets : List (String × PolicyNames)
deriving DecidableEq, Repr

/-- The timeouts loop of Provider.configure. -/
def configureTimeouts : List (String × String) → Except String (List (String × Int))
  | [] => .ok []
  | (n, v) :: rest =>
    match parseDuration v with
    | .error e => .error e
    | .ok d =>
      match configureTimeouts rest with
      | .error e => .error e
      | .ok r => .ok ((n, d) :: r)

/-- The retries loop of Provider.configure. -/
def configureRetries : List (String × RetryCfg) → Except String (List (String × RetryPol))
  | [] => .ok []
  | (n, v) :: rest =>
    match newRetry v with
    | .error e => .error e
    | .ok d =>
      match configureRetries rest with
      | .error e => .error e
      | .ok r => .ok ((n, d) :: r)

/-- The circuit breakers loop of Provider.configure. -/
def configureBreakers : List (String × CircuitBreakerCfg) → Except String (List (String × BreakerCfg))
  | [] => .ok []
  | (n, v) :: rest =>
    match newCircuitBreaker v with
    | .error e => .error e
    | .ok d =>
      match configureBreakers rest with
      | .error e => .error e
      | .ok r => .ok ((n, d) :: r)

/-- FromConfig from the provider code: configure resolves every named
timeout, retry and breaker definition, then copies the targets verbatim;
any parse failure aborts construction. -/
def FromConfig (cfg : Config) : Except String ProviderM :=
  match configureTimeouts cfg.timeouts with
  | .error e => .error e
  | .ok ts =>
    match configureRetries cfg.retries with
    | .error e => .error e
    | .ok rs =>
      match configureBreakers cfg.circuitBreakers with
      | .error e => .error e
      | .ok cbs => .ok ⟨ts, rs, cbs, cfg.targets⟩

/-- Provider.Policy: start from the zero Policy, and for each nonempty
name that resolves, fill in the corresponding guard; absent targets and
unresolvable names leave the guard disabled. -/
def ProviderM.policy (p : ProviderM) (tgt : String) : PolicyM :=
  match p.targets.lookup tgt with
  | none => ⟨0, none, none⟩
  | some t =>
    { timeout :=
        if t.timeout ≠ "" then
          match p.timeouts.lookup t.timeout with
          | some d => d
          | none => 0
        else 0
      retry := if t.retry ≠ "" then p.retries.lookup t.retry else none
      circuitBreaker :=
        if t.circuitBreaker ≠ "" then p.circuitBreakers.lookup t.circuitBreaker
        else none }

/-! ## The gobreaker state machine

Modelled from the spec (section 4.3) and the gobreaker settings wired in
circuitbreaker.go, since the gobreaker library is not part of src: three
states, a consecutive-failure trip predicate, a rolling counter-clear
interval while closed, an open-state cool-down, and a probe cap while
half-open.  Time is an explicit Nat instant passed to every call; the
model is sequential, so the gobreaker generation check (which only guards
against interleaved calls) is omitted. -/

inductive CBState where
  | closed
  | opened
  | halfOpen
deriving DecidableEq, Repr

/-- gobreaker Counts. -/
structure Counts where
  requests : Nat
  totalSuccesses : Nat
  totalFailures : Nat
  consecutiveSuccesses : Nat
  consecutiveFailures : Nat
deriving DecidableEq, Repr

def zeroCounts : Counts := ⟨0, 0, 0, 0, 0⟩

def onSuccessCounts (c : Counts) : Counts :=
  { c with totalSuccesses := c.totalSuccesses + 1
           consecutiveSuccesses := c.consecutiveSuccesses + 1
           consecutiveFailures := 0 }

def onFailureCounts (c : Counts) : Counts :=
  { c with totalFailures := c.totalFailures + 1
           consecutiveFailures := c.consecutiveFailures + 1
           consecutiveSuccesses := 0 }

/-- Mutable state of one breaker instance: state, counters, and the expiry
instant of the current generation (0 means no expiry). -/
structure BreakerSt where
  state : CBState
  counts : Counts
  expiry : Nat
deriving DecidableEq, Repr

/-- gobreaker toNewGeneration: clear the counters and set the expiry for
the new generation. -/
def toNewGeneration (cfg : BreakerCfg) (st : CBState) (now : Nat) : BreakerSt :=
  { state := st
    counts := zeroCounts
    expiry :=
      match st with
      | .closed => if cfg.interval = 0 then 0 else now + cfg.interval
      | .opened => now + cfg.timeout
      | .halfOpen => 0 }

/-- A freshly constructed breaker: closed, in a new generation. -/
def initBreaker (cfg : BreakerCfg) (now : Nat) : BreakerSt :=
  toNewGeneration cfg .closed now

/-- gobreaker currentState: while closed, clear the counters when the
rolling interval expired; while open, move to half-open when the cool-down
expired. -/
def currentState (cfg : BreakerCfg) (s : BreakerSt) (now : Nat) : BreakerSt :=
  match s.state with
  | .closed => if s.expiry ≠ 0 ∧ s.expiry < now then toNewGeneration cfg .closed now else s
  | .opened => if s.expiry < now then toNewGeneration cfg .halfOpen now else s
  | .halfOpen => s

/-- gobreaker onSuccess: count the success; a half-open breaker closes
once the probes reached the request cap. -/
def cbOnSuccess (cfg : BreakerCfg) (s : BreakerSt) (now : Nat) : BreakerSt :=
  match s.state with
  | .closed => { s with counts := onSuccessCounts s.counts }
  | .halfOpen =>
    let c := onSuccessCounts s.counts
    if cfg.maxRequests ≤ c.consecutiveSuccesses then toNewGeneration cfg .closed now
    else { s with counts := c }
  | .opened => s

/-- gobreaker onFailure with the ReadyToTrip predicate wired by
newCircuitBreaker (consecutive failures reached the threshold): a closed
breaker trips once the predicate holds; a half-open breaker reopens. -/
def cbOnFailure (cfg : BreakerCfg) (s : BreakerSt) (now : Nat) : BreakerSt :=
  match s.state with
  | .closed =>
    let c := onFailureCounts s.counts
    if cfg.failures ≤ c.consecutiveFailures then toNewGeneration cfg .opened now
    else { s with counts := c }
  | .halfOpen => toNewGeneration cfg .opened now
  | .opened => s

/-- gobreaker afterRequest (sequential model): refresh the state for the
current instant, then record the outcome. -/
def cbAfter (cfg : BreakerCfg) (s : BreakerSt) (now : Nat) (success : Bool) : BreakerSt :=
  let s1 := currentState cfg s now
  if success then cbOnSuccess cfg s1 now else cbOnFailure cfg s1 now

/-! ## The composed execution pipeline (policy.go, retry.go)

One invocation of the raw operation is described by its completion time
relative to the start of the attempt and its outcome; a whole operation is
the stream of behaviors of its successive invocations, indexed by the
invocation counter carried in the World.  Guards are World transformers
that also receive the absolute start instant of the attempt. -/

instance : DecidableEq (Except GoErr Val) := fun a b =>
  match a, b with
  | .ok x, .ok y => if h : x = y then .isTrue (by rw [h]) else .isFalse (by simp [h])
  | .ok _, .error _ => .isFalse (by simp)
  | .error _, .ok _ => .isFalse (by simp)
  | .error x, .error y => if h : x = y then .isTrue (by rw [h]) else .isFalse (by simp [h])

/-- Behavior of one invocation of the raw operation: it either returns a
result or an error after t time units, or it panics after t time units. -/
inductive OpBehavior where
  | returns (t : Nat) (r : Except GoErr Val)
  | panics (t : Nat)
deriving DecidableEq, Repr

/-- Outcome of a call through the guard stack: a returned Go
(value, error) pair, or a propagating panic. -/
inductive CallRes where
  | ret (r : Except GoErr Val)
  | panic
deriving DecidableEq, Repr

/-- Mutable state threaded through a composed call: the breaker instance
state and the number of times the raw operation has been invoked. -/
structure World where
  invocations : Nat
  breaker : BreakerSt
deriving DecidableEq, Repr

/-- A guarded operation in the model: World and start instant in, World
and call outcome out. -/
abbrev MOp := World → Nat → World × CallRes

/-- The ambient Go context, reduced to its observable effect here: the
instant at which it is cancelled, if ever. -/
abbrev GoCtx := Option Nat

/-- Whether the ambient context is done at instant t. -/
def ctxDoneBy (ctx : GoCtx) (t : Nat) : Bool :=
  match ctx with
  | some c => c ≤ t
  | none => false

/-- Result delivered by a direct (unguarded) invocation. -/
def rawResult : OpBehavior → CallRes
  | .returns _ r => .ret r
  | .panics _ => .panic

/-- Direct invocation of the raw operation, as the identity executor and
the guards without a configured timeout perform it: the invocation counter
advances and the outcome is delivered unchanged (a panic propagates). -/
def rawInvoke (op : Nat → OpBehavior) : MOp := fun w _ =>
  ({ w with invocations := w.invocations + 1 }, rawResult (op w.invocations))

/-- Policy.withTimeout from policy.go: start the operation on a background
task and race its single-slot result channel against the deadline derived
from the configured duration, and against cancellation of the ambient
context.  A panic in the task is recovered and converted to an ordinary
error result; completion at or after the deadline loses the race and the
deadline-exceeded error is returned instead, the late outcome being
discarded. -/
def withTimeout (ctx : GoCtx) (d : Nat) (op : Nat → OpBehavior) : MOp := fun w now =>
  let fin : Nat × Except GoErr Val :=
    match op w.invocations with
    | .returns t r => (t, r)
    | .panics t => (t, .error .panicked)
  let doneAt := now + fin.1
  let res : Except GoErr Val :=
    match ctx with
    | some c =>
      if doneAt < now + d ∧ doneAt < c then fin.2
      else if c < now + d then .error .contextCanceled
      else .error .deadlineExceeded
    | none => if doneAt < now + d then fin.2 else .error .deadlineExceeded
  ({ w with invocations := w.invocations + 1 }, .ret res)

/-- The body of gobreaker Execute after beforeRequest admitted the call:
run the inner operation and record its outcome (an error or a panic counts
as a failure; gobreaker re-raises a recovered panic after recording it). -/
def cbRun (cfg : BreakerCfg) (inner : MOp) : MOp := fun w now =>
  match inner w now with
  | (w2, .panic) => ({ w2 with breaker := cbAfter cfg w2.breaker now false }, .panic)
  | (w2, .ret (.ok v)) => ({ w2 with breaker := cbAfter cfg w2.breaker now true }, .ret (.ok v))
  | (w2, .ret (.error e)) =>
    ({ w2 with breaker := cbAfter cfg w2.breaker now false }, .ret (.error e))

/-- gobreaker Execute: refresh the state, fail fast with the open-state
error while open, fail fast with the too-many-requests error while
half-open at the probe cap, otherwise count the request and run it. -/
def cbExecute (cfg : BreakerCfg) (inner : MOp) : MOp := fun w now =>
  let s1 := currentState cfg w.breaker now
  match s1.state with
  | .opened => ({ w with breaker := s1 }, .ret (.error .openState))
  | .halfOpen =>
    if cfg.maxRequests ≤ s1.counts.requests then
      ({ w with breaker := s1 }, .ret (.error .tooManyRequests))
    else
      cbRun cfg inner
        { w with breaker := { s1 with counts := { s1.counts with requests := s1.counts.requests + 1 } } }
        now
  | .closed =>
    cbRun cfg inner
      { w with breaker := { s1 with counts := { s1.counts with requests := s1.counts.requests + 1 } } }
      now

/-- Policy.withCircuitBreaker from policy.go: run through the breaker,
then, when a retry policy is also configured and the resulting error is
classified permanent, wrap it in the backoff permanent-error marker. -/
def withCircuitBreaker (cfg : BreakerCfg) (retryPresent : Bool) (inner : MOp) : MOp :=
  fun w now =>
    match cbExecute cfg inner w now with
    | (w2, .ret (.error e)) =>
      (w2, .ret (.error (if retryPresent && IsErrorPermanent (some e) then .permanentErr e else e)))
    | other => other

/-- The backoff.RetryWithData loop driven by the backoff built in
retry.go (constant delay, capped retries, bound to the ambient context),
with the remaining-retries counter explicit: invoke; return a success as
is; unwrap and return a permanent error at once; otherwise consult the
context and the remaining budget, returning the context error when the
context is done, the last error when the budget is exhausted, and
retrying after the constant delay otherwise (a cancellation arriving
during the wait also aborts the loop).  A panic propagates. -/
def retryRun (inner : MOp) (ctx : GoCtx) (delay : Nat) : Nat → MOp
  | 0, w, now =>
    match inner w now with
    | (w2, .panic) => (w2, .panic)
    | (w2, .ret (.ok v)) => (w2, .ret (.ok v))
    | (w2, .ret (.error e)) =>
      match asPermanent e with
      | some cause => (w2, .ret (.error cause))
      | none =>
        if ctxDoneBy ctx now then (w2, .ret (.error .contextCanceled))
        else (w2, .ret (.error e))
  | m + 1, w, now =>
    match inner w now with
    | (w2, .panic) => (w2, .panic)
    | (w2, .ret (.ok v)) => (w2, .ret (.ok v))
    | (w2, .ret (.error e)) =>
      match asPermanent e with
      | some cause => (w2, .ret (.error cause))
      | none =>
        if ctxDoneBy ctx now then (w2, .ret (.error .contextCanceled))
        else
          if ctxDoneBy ctx (now + delay) then (w2, .ret (.error .contextCanceled))
          else retryRun inner ctx delay m w2 (now + delay)

/-- The retry budget the backoff of retry.go grants: maxRetries when it is
nonnegative (backoff.WithMaxRetries), unbounded otherwise. -/
def backoffCap (r : RetryPol) : Option Nat :=
  if 0 ≤ r.maxRetries then some r.maxRetries.toNat else none

/-- Fuel stand-in for the unbounded-retries case of the model only: in Go
that loop ends only through success, a permanent error, or cancellation;
the model runs it for enough iterations to reach the cancellation instant.
No theorem below depends on this branch. -/
def unboundedFuel (ctx : GoCtx) (delay : Nat) (now : Nat) : Nat :=
  match ctx with
  | some c => (c - now) / (delay + 1) + 2
  | none => 0

/-- Policy.withRetry from policy.go: drive the guarded operation with the
retry loop under the backoff built from the policy. -/
def withRetry (ctx : GoCtx) (r : RetryPol) (inner : MOp) : MOp := fun w now =>
  match backoffCap r with
  | some n => retryRun inner ctx r.duration.toNat n w now
  | none => retryRun inner ctx r.duration.toNat (unboundedFuel ctx r.duration.toNat now) w now

/-- NewExecutor from policy.go: a nil policy yields the identity executor;
otherwise the timeout guard wraps the raw operation when a positive
timeout is configured, the breaker (told whether a retry policy is also
present) wraps that when configured, and the call either runs the guarded
operation once or hands it to the retry driver. -/
def NewExecutor (ctx : GoCtx) (policy : Option PolicyM) (oper : Nat → OpBehavior) : MOp :=
  match policy with
  | none => fun w now => rawInvoke oper w now
  | some p => fun w now =>
    let operation1 : MOp :=
      if 0 < p.timeout then withTimeout ctx p.timeout.toNat oper else rawInvoke oper
    let operation2 : MOp :=
      match p.circuitBreaker with
      | some cfg => withCircuitBreaker cfg p.retry.isSome operation1
      | none => operation1
    match p.retry with
    | none => operation2 w now
    | some r => withRetry ctx r operation2 w now

/-- Modelled from the spec: Timeout wraps the raw operation if a timeout
is configured. -/
def applyTimeoutIf (ctx : GoCtx) (tmo : Int) (oper : Nat → OpBehavior) : MOp :=
  if 0 < tmo then withTimeout ctx tmo.toNat oper else rawInvoke oper

/-- Modelled from the spec: the Circuit Breaker, if configured, wraps the
possibly timeout-bounded operation next. -/
def applyBreakerIf (cb : Option BreakerCfg) (retryPresent : Bool) (inner : MOp) : MOp :=
  match cb with
  | some cfg => withCircuitBreaker cfg retryPresent inner
  | none => inner

/-- Modelled from the spec: the Retry loop, if configured, becomes the
outermost driver. -/
def applyRetryIf (r : Option RetryPol) (ctx : GoCtx) (inner : MOp) : MOp :=
  match r with
  | some rp => withRetry ctx rp inner
  | none => inner

/-- Modelled from the spec: the full composition, outermost first Retry,
then Circuit Breaker, then Timeout around the raw operation, each layer
skipped entirely when not configured. -/
def specComposed (ctx : GoCtx) (p : PolicyM) (oper : Nat → OpBehavior) : MOp :=
  applyRetryIf p.retry ctx
    (applyBreakerIf p.circuitBreaker p.retry.isSome
      (applyTimeoutIf ctx p.timeout oper))

/-- Iterated calls of a guarded operation, all at the same instant, used
to drive the breaker through consecutive failures. -/
def iterCalls (m : MOp) (now : Nat) : Nat → World → World
  | 0, w => w
  | j + 1, w => (m (iterCalls m now j w) now).1

/-! ## Helper lemmas -/

theorem errIs_iff_mem_chain (x t : GoErr) : errIs x t = true ↔ t ∈ errChain x := by
  induction x with
  | permanentErr e ih =>
    simp only [errIs, errChain, Bool.or_eq_true, decide_eq_true_eq, List.mem_cons, ih]
    tauto
  | wrapped n e ih =>
    simp only [errIs, errChain, Bool.or_eq_true, decide_eq_true_eq, List.mem_cons, ih]
    tauto
  | _ => simp [errIs, errChain, eq_comm]

theorem retryRun_success (inner : MOp) (ctx : GoCtx) (delay n : Nat) (w w2 : World)
    (now : Nat) (v : Val) (h : inner w now = (w2, .ret (.ok v))) :
    retryRun inner ctx delay n w now = (w2, .ret (.ok v)) := by
  cases n <;> simp only [retryRun, h]

theorem retryRun_permanent (inner : MOp) (ctx : GoCtx) (delay n : Nat) (w w2 : World)
    (now : Nat) (e c : GoErr) (h : inner w now = (w2, .ret (.error e)))
    (hp : asPermanent e = some c) :
    retryRun inner ctx delay n w now = (w2, .ret (.error c)) := by
  cases n <;> simp only [retryRun, h, hp]

theorem retryRun_exhausted (inner : MOp) (delay : Nat) (w w2 : World)
    (now : Nat) (e : GoErr) (h : inner w now = (w2, .ret (.error e)))
    (hp : asPermanent e = none) :
    retryRun inner none delay 0 w now = (w2, .ret (.error e)) := by
  simp only [retryRun, h, hp, ctxDoneBy, Bool.false_eq_true, if_false]

theorem retryRun_step (inner : MOp) (delay m : Nat) (w w2 : World)
    (now : Nat) (e : GoErr) (h : inner w now = (w2, .ret (.error e)))
    (hp : asPermanent e = none) :
    retryRun inner none delay (m + 1) w now = retryRun inner none delay m w2 (now + delay) := by
  simp only [retryRun, h, hp, ctxDoneBy, Bool.false_eq_true, if_false]

theorem withRetry_permanent (ctx : GoCtx) (r : RetryPol) (inner : MOp) (w w2 : World)
    (now : Nat) (e c : GoErr) (h : inner w now = (w2, .ret (.error e)))
    (hp : asPermanent e = some c) :
    withRetry ctx r inner w now = (w2, .ret (.error c)) := by
  unfold withRetry
  cases backoffCap r <;> exact retryRun_permanent _ _ _ _ _ _ _ _ _ h hp

theorem withCircuitBreaker_open_reject (cfg : BreakerCfg) (rp : Bool) (inner : MOp)
    (w : World) (now : Nat) (h1 : w.breaker.state = .opened)
    (h2 : now ≤ w.breaker.expiry) :
    withCircuitBreaker cfg rp inner w now
      = (w, .ret (.error (if rp then .permanentErr .openState else .openState))) := by
  obtain ⟨i, st, cnts, exp⟩ := w
  simp only at h1 h2
  subst h1
  have hlt : ¬ exp < now := by omega
  simp [withCircuitBreaker, cbExecute, currentState, hlt, IsErrorPermanent, errIs]

theorem withCircuitBreaker_halfopen_reject (cfg : BreakerCfg) (rp : Bool) (inner : MOp)
    (w : World) (now : Nat) (h1 : w.breaker.state = .halfOpen)
    (h2 : cfg.maxRequests ≤ w.breaker.counts.requests) :
    withCircuitBreaker cfg rp inner w now
      = (w, .ret (.error (if rp then .permanentErr .tooManyRequests else .tooManyRequests))) := by
  obtain ⟨i, st, cnts, exp⟩ := w
  simp only at h1 h2
  subst h1
  simp [withCircuitBreaker, cbExecute, currentState, h2, IsErrorPermanent, errIs]

/-! ## Claims -/

/-- C6: IsErrorPermanent holds exactly when the error is (in the sense of
the Go errors.Is chain) the open-state error or the too-many-requests
error, and is false for every other error, including nil (none). -/
theorem isErrorPermanent_characterisation (e : Option GoErr) :
    (IsErrorPermanent e = true ↔
      (∃ x, e = some x ∧ (GoErr.openState ∈ errChain x ∨ GoErr.tooManyRequests ∈ errChain x)))
    ∧ IsErrorPermanent none = false
    ∧ IsErrorPermanent (some .openState) = true
    ∧ IsErrorPermanent (some .tooManyRequests) = true := by
  refine ⟨?_, rfl, rfl, rfl⟩
  cases e with
  | none => simp [IsErrorPermanent]
  | some x =>
    simp [IsErrorPermanent, errIs_iff_mem_chain]

/-- C1: the executor built by NewExecutor is exactly the spec composition
(Retry outermost, then Circuit Breaker, then Timeout, each skipped when
absent); a nil policy, and a policy with no guards at all, invoke the raw
operation exactly once against the ambient context and deliver its
outcome unchanged. -/
theorem newExecutor_composition (ctx : GoCtx) (p : PolicyM) (oper : Nat → OpBehavior)
    (w : World) (now : Nat) :
    NewExecutor ctx (some p) oper w now = specComposed ctx p oper w now
    ∧ NewExecutor ctx none oper w now
        = ({ w with invocations := w.invocations + 1 }, rawResult (oper w.invocations))
    ∧ (p.timeout ≤ 0 → p.retry = none → p.circuitBreaker = none →
        NewExecutor ctx (some p) oper w now
          = ({ w with invocations := w.invocations + 1 }, rawResult (oper w.invocations))) := by
  refine ⟨?_, rfl, ?_⟩
  · obtain ⟨tmo, r, cb⟩ := p
    cases r <;> cases cb <;> rfl
  · intro h1 h2 h3
    obtain ⟨tmo, r, cb⟩ := p
    simp only at h1 h2 h3
    subst h2
    subst h3
    have hnt : ¬ (0 : Int) < tmo := by omega
    simp [NewExecutor, hnt, rawInvoke]

/-- C5: the timeout guard races the operation against the deadline: a
completion strictly before the deadline is delivered as is (value or the
operation error), and otherwise the deadline-exceeded error is returned,
whatever the late outcome would have been. -/
theorem withTimeout_race (d : Nat) (hd : 0 < d) (op : Nat → OpBehavior) (w : World)
    (now t : Nat) (r : Except GoErr Val) :
    (op w.invocations = .returns t r → t < d →
      withTimeout none d op w now = ({ w with invocations := w.invocations + 1 }, .ret r))
    ∧ (op w.invocations = .returns t r → d ≤ t →
      withTimeout none d op w now
        = ({ w with invocations := w.invocations + 1 }, .ret (.error .deadlineExceeded))) := by
  refine ⟨fun hop ht => ?_, fun hop ht => ?_⟩
  · simp only [withTimeout, hop]
    rw [if_pos (by omega)]
  · simp only [withTimeout, hop]
    rw [if_neg (by omega)]

/-- C9: a panic of the operation inside the timeout guard background task
never escapes to the caller (the guard always returns an ordinary
result), and when the panic occurs before the deadline the caller
receives the converted panic error. -/
theorem withTimeout_absorbs_panic (ctx : GoCtx) (d : Nat) (op : Nat → OpBehavior)
    (w : World) (now t : Nat) :
    (withTimeout ctx d op w now).2 ≠ .panic
    ∧ (op w.invocations = .panics t → t < d → ctx = none →
        withTimeout ctx d op w now
          = ({ w with invocations := w.invocations + 1 }, .ret (.error .panicked))) := by
  constructor
  · simp [withTimeout]
  · intro hop ht hctx
    subst hctx
    simp only [withTimeout, hop]
    rw [if_pos (by omega)]

/-- C4: with both a breaker and a retry policy in the composed executor, a
breaker rejection (open state, or half-open at the probe cap) returns at
once with the rejection error itself: the operation is not attempted and
the world (invocation counter included) is untouched, whatever retry
budget remains. -/
theorem breaker_rejection_short_circuits_retry (ctx : GoCtx) (tmo : Int) (r : RetryPol)
    (cfg : BreakerCfg) (op : Nat → OpBehavior) (w : World) (now : Nat) :
    (w.breaker.state = .opened → now ≤ w.breaker.expiry →
      NewExecutor ctx (some ⟨tmo, some r, some cfg⟩) op w now = (w, .ret (.error .openState)))
    ∧ (w.breaker.state = .halfOpen → cfg.maxRequests ≤ w.breaker.counts.requests →
      NewExecutor ctx (some ⟨tmo, some r, some cfg⟩) op w now
        = (w, .ret (.error .tooManyRequests))) := by
  constructor
  · intro h1 h2
    have hcb : withCircuitBreaker cfg true
        (if 0 < tmo then withTimeout ctx tmo.toNat op else rawInvoke op) w now
        = (w, .ret (.error (.permanentErr .openState))) := by
      simpa using withCircuitBreaker_open_reject cfg true
        (if 0 < tmo then withTimeout ctx tmo.toNat op else rawInvoke op) w now h1 h2
    show withRetry ctx r (withCircuitBreaker cfg true
      (if 0 < tmo then withTimeout ctx tmo.toNat op else rawInvoke op)) w now = _
    exact withRetry_permanent ctx r _ w w now (.permanentErr .openState) .openState hcb rfl
  · intro h1 h2
    have hcb : withCircuitBreaker cfg true
        (if 0 < tmo then withTimeout ctx tmo.toNat op else rawInvoke op) w now
        = (w, .ret (.error (.permanentErr .tooManyRequests))) := by
      simpa using withCircuitBreaker_halfopen_reject cfg true
        (if 0 < tmo then withTimeout ctx tmo.toNat op else rawInvoke op) w now h1 h2
    show withRetry ctx r (withCircuitBreaker cfg true
      (if 0 < tmo then withTimeout ctx tmo.toNat op else rawInvoke op)) w now = _
    exact withRetry_permanent ctx r _ w w now (.permanentErr .tooManyRequests)
      .tooManyRequests hcb rfl

/-- C10: Provider.Policy always produces a Policy value; an absent target
yields the zero Policy, an unresolvable timeout, retry, or breaker name
leaves that guard disabled, and an executor built from the zero Policy
invokes the operation exactly once, delivering its outcome unchanged. -/
theorem provider_policy_total (p : ProviderM) (tgt : String) (t : PolicyNames)
    (ctx : GoCtx) (op : Nat → OpBehavior) (w : World) (now : Nat) :
    (p.targets.lookup tgt = none → p.policy tgt = ⟨0, none, none⟩)
    ∧ (p.targets.lookup tgt = some t →
        (t.retry ≠ "" → p.retries.lookup t.retry = none → (p.policy tgt).retry = none)
        ∧ (t.timeout ≠ "" → p.timeouts.lookup t.timeout = none → (p.policy tgt).timeout = 0)
        ∧ (t.circuitBreaker ≠ "" → p.circuitBreakers.lookup t.circuitBreaker = none →
            (p.policy tgt).circuitBreaker = none))
    ∧ NewExecutor ctx (some ⟨0, none, none⟩) op w now
        = ({ w with invocations := w.invocations + 1 }, rawResult (op w.invocations)) := by
  refine ⟨fun h => by simp [ProviderM.policy, h], fun h => ?_, ?_⟩
  · refine ⟨fun hne hl => ?_, fun hne hl => ?_, fun hne hl => ?_⟩ <;>
      simp [ProviderM.policy, h, hne, hl]
  · simp [NewExecutor, rawInvoke]

/-- C7 counterexample: a configuration whose only target references an
undefined retry name is accepted by FromConfig, with the target copied
verbatim; resolution failures are deferred to Provider.Policy, which
silently omits the guard. -/
theorem fromConfig_accepts_unresolvable_name :
    FromConfig ⟨[], [], [], [("t", ⟨"", "missing", ""⟩)]⟩
      = .ok ⟨[], [], [], [("t", ⟨"", "missing", ""⟩)]⟩ := rfl

theorem configureTimeouts_ok_iff (l : List (String × String)) :
    exOk (configureTimeouts l) = true ↔ ∀ p ∈ l, exOk (parseDuration p.2) = true := by
  induction l with
  | nil => simp [configureTimeouts, exOk]
  | cons hd tl ih =>
    obtain ⟨n, v⟩ := hd
    rw [List.forall_mem_cons]
    simp only [configureTimeouts]
    rcases hpv : parseDuration v with e | dv
    · simp [exOk, hpv]
    · rcases hct : configureTimeouts tl with e2 | r2 <;>
      · rw [hct] at ih
        rw [← ih]
        simp [exOk, hpv]

theorem configureRetries_ok_iff (l : List (String × RetryCfg)) :
    exOk (configureRetries l) = true ↔ ∀ p ∈ l, exOk (parseDuration p.2.duration) = true := by
  induction l with
  | nil => simp [configureRetries, exOk]
  | cons hd tl ih =>
    obtain ⟨n, v⟩ := hd
    rw [List.forall_mem_cons]
    simp only [configureRetries, newRetry]
    rcases hpv : parseDuration v.duration with e | dv
    · simp [exOk, hpv]
    · rcases hct : configureRetries tl with e2 | r2 <;>
      · rw [hct] at ih
        rw [← ih]
        simp [exOk, hpv]

theorem newCircuitBreaker_ok_iff (c : CircuitBreakerCfg) :
    exOk (newCircuitBreaker c) = true ↔
      exOk (parseDuration c.interval) = true ∧ exOk (parseDuration c.timeout) = true := by
  unfold newCircuitBreaker
  rcases hi : parseDuration c.interval with e | di <;>
    rcases ht : parseDuration c.timeout with e2 | dt <;> simp [exOk]

theorem configureBreakers_ok_iff (l : List (String × CircuitBreakerCfg)) :
    exOk (configureBreakers l) = true ↔
      ∀ p ∈ l, exOk (parseDuration p.2.interval) = true
        ∧ exOk (parseDuration p.2.timeout) = true := by
  induction l with
  | nil => simp [configureBreakers, exOk]
  | cons hd tl ih =>
    obtain ⟨n, v⟩ := hd
    rw [List.forall_mem_cons]
    have hv := newCircuitBreaker_ok_iff v
    rw [← hv]
    simp only [configureBreakers]
    rcases hnv : newCircuitBreaker v with e | bv
    · simp [exOk]
    · rcases hct : configureBreakers tl with e2 | r2 <;>
      · rw [hct] at ih
        rw [← ih]
        simp [exOk]

theorem fromConfig_ok_iff (cfg : Config) :
    exOk (FromConfig cfg) = true ↔
      (∀ p ∈ cfg.timeouts, exOk (parseDuration p.2) = true)
      ∧ (∀ p ∈ cfg.retries, exOk (parseDuration p.2.duration) = true)
      ∧ (∀ p ∈ cfg.circuitBreakers,
          exOk (parseDuration p.2.interval) = true ∧ exOk (parseDuration p.2.timeout) = true) := by
  rw [← configureTimeouts_ok_iff, ← configureRetries_ok_iff, ← configureBreakers_ok_iff]
  unfold FromConfig
  rcases h1 : configureTimeouts cfg.timeouts with e1 | ts <;>
    rcases h2 : configureRetries cfg.retries with e2 | rs <;>
      rcases h3 : configureBreakers cfg.circuitBreakers with e3 | cbs <;>
        simp [exOk]

/-- C7 as amended: FromConfig fails exactly when some configured duration
string (a timeout value, a retry duration, or a breaker interval or
timeout) does not parse, and a failure produces no Provider; a target
referencing an unresolvable timeout, retry, or breaker name is not an
error. -/
theorem fromConfig_fails_iff_bad_duration (cfg : Config) :
    exOk (FromConfig cfg) = false ↔
      ((∃ p ∈ cfg.timeouts, exOk (parseDuration p.2) = false)
       ∨ (∃ p ∈ cfg.retries, exOk (parseDuration p.2.duration) = false)
       ∨ (∃ p ∈ cfg.circuitBreakers,
            exOk (parseDuration p.2.interval) = false
              ∨ exOk (parseDuration p.2.timeout) = false)) := by
  constructor
  · intro hf
    by_contra hc
    push_neg at hc
    obtain ⟨hc1, hc2, hc3⟩ := hc
    simp only [Bool.not_eq_false] at hc1 hc2
    simp only [not_or, Bool.not_eq_false] at hc3
    have := (fromConfig_ok_iff cfg).mpr ⟨hc1, hc2, hc3⟩
    simp [hf] at this
  · intro hex
    by_contra hc
    rw [Bool.not_eq_false] at hc
    obtain ⟨hA, hB, hC⟩ := (fromConfig_ok_iff cfg).mp hc
    rcases hex with ⟨p, hp, hv⟩ | ⟨p, hp, hv⟩ | ⟨p, hp, hv⟩
    · have := hA p hp
      simp [hv] at this
    · have := hB p hp
      simp [hv] at this
    · have := hC p hp
      rcases hv with hv | hv <;> simp [hv] at this

theorem retryRun_rawInvoke_count (op : Nat → OpBehavior) (delay : Nat) :
    ∀ (n k : Nat), 1 ≤ k →
    ∀ (ts : Nat → Nat) (ef : Nat → GoErr) (v : Val) (tk : Nat) (w : World) (now : Nat),
      (∀ j, j < k - 1 →
        op (w.invocations + j) = .returns (ts j) (.error (ef j))
          ∧ asPermanent (ef j) = none) →
      op (w.invocations + (k - 1)) = .returns tk (.ok v) →
      retryRun (rawInvoke op) none delay n w now =
        ({ w with invocations := w.invocations + min k (n + 1) },
         if k ≤ n + 1 then CallRes.ret (.ok v) else CallRes.ret (.error (ef n))) := by
  intro n
  induction n with
  | zero =>
    intro k hk ts ef v tk w now hfail hsucc
    by_cases hk1 : k = 1
    · subst hk1
      simp only [Nat.sub_self, Nat.add_zero] at hsucc
      have hinner : rawInvoke op w now
          = ({ w with invocations := w.invocations + 1 }, .ret (.ok v)) := by
        simp [rawInvoke, rawResult, hsucc]
      rw [retryRun_success _ _ _ _ _ _ _ _ hinner]
      simp
    · have h0 := hfail 0 (by omega)
      have h01 : op w.invocations = .returns (ts 0) (.error (ef 0)) := by
        simpa using h0.1
      have hinner : rawInvoke op w now
          = ({ w with invocations := w.invocations + 1 }, .ret (.error (ef 0))) := by
        simp [rawInvoke, rawResult, h01]
      rw [retryRun_exhausted _ _ _ _ _ _ hinner h0.2]
      rw [show min k (0 + 1) = 1 from by omega, if_neg (by omega)]
  | succ m ih =>
    intro k hk ts ef v tk w now hfail hsucc
    by_cases hk1 : k = 1
    · subst hk1
      simp only [Nat.sub_self, Nat.add_zero] at hsucc
      have hinner : rawInvoke op w now
          = ({ w with invocations := w.invocations + 1 }, .ret (.ok v)) := by
        simp [rawInvoke, rawResult, hsucc]
      rw [retryRun_success _ _ _ _ _ _ _ _ hinner]
      rw [show min 1 (m + 1 + 1) = 1 from by omega, if_pos (by omega)]
    · have h0 := hfail 0 (by omega)
      have h01 : op w.invocations = .returns (ts 0) (.error (ef 0)) := by
        simpa using h0.1
      have hinner : rawInvoke op w now
          = ({ w with invocations := w.invocations + 1 }, .ret (.error (ef 0))) := by
        simp [rawInvoke, rawResult, h01]
      rw [retryRun_step _ _ _ _ _ _ _ hinner h0.2]
      have hfail2 : ∀ j, j < (k - 1) - 1 →
          op (({ w with invocations := w.invocations + 1 } : World).invocations + j)
            = .returns (ts (j + 1)) (.error (ef (j + 1)))
          ∧ asPermanent (ef (j + 1)) = none := by
        intro j hj
        have hq := hfail (j + 1) (by omega)
        have he : w.invocations + 1 + j = w.invocations + (j + 1) := by omega
        show op (w.invocations + 1 + j) = _ ∧ _
        rw [he]
        exact hq
      have hsucc2 :
          op (({ w with invocations := w.invocations + 1 } : World).invocations + ((k - 1) - 1))
            = .returns tk (.ok v) := by
        have he : w.invocations + 1 + (k - 1 - 1) = w.invocations + (k - 1) := by omega
        show op (w.invocations + 1 + (k - 1 - 1)) = _
        rw [he]
        exact hsucc
      rw [ih (k - 1) (by omega) (fun j => ts (j + 1)) (fun j => ef (j + 1)) v tk
        { w with invocations := w.invocations + 1 } (now + delay) hfail2 hsucc2]
      by_cases hle : k ≤ m + 2
      · rw [if_pos (show k - 1 ≤ m + 1 by omega), if_pos (show k ≤ m + 1 + 1 by omega)]
        rw [show w.invocations + 1 + min (k - 1) (m + 1)
              = w.invocations + min k (m + 1 + 1) from by omega]
      · rw [if_neg (show ¬ k - 1 ≤ m + 1 by omega), if_neg (show ¬ k ≤ m + 1 + 1 by omega)]
        rw [show w.invocations + 1 + min (k - 1) (m + 1)
              = w.invocations + min k (m + 1 + 1) from by omega]

/-- C2: under a retry policy with maxRetries N and an un-cancelled
context, an operation whose attempts fail with ordinary (unmarked) errors
until the first success at attempt k is invoked exactly min k (N+1)
times; a success within the budget is returned as is, and when every
allowed attempt fails the last error is returned unchanged. -/
theorem retry_invocation_count (N k d : Nat) (ts : Nat → Nat) (ef : Nat → GoErr)
    (v : Val) (tk : Nat) (op : Nat → OpBehavior) (w : World) (now : Nat) (hk : 1 ≤ k)
    (hfail : ∀ j, j < k - 1 →
      op (w.invocations + j) = .returns (ts j) (.error (ef j)) ∧ asPermanent (ef j) = none)
    (hsucc : op (w.invocations + (k - 1)) = .returns tk (.ok v)) :
    NewExecutor none (some ⟨0, some ⟨(d : Int), (N : Int)⟩, none⟩) op w now
      = ({ w with invocations := w.invocations + min k (N + 1) },
         if k ≤ N + 1 then CallRes.ret (.ok v) else CallRes.ret (.error (ef N))) := by
  have hred : NewExecutor none (some ⟨0, some ⟨(d : Int), (N : Int)⟩, none⟩) op w now
      = retryRun (rawInvoke op) none d N w now := by
    simp [NewExecutor, withRetry, backoffCap]
  rw [hred]
  exact retryRun_rawInvoke_count op d N k hk ts ef v tk w now hfail hsucc

theorem breaker_fail_step (cfg : BreakerCfg) (op : Nat → OpBehavior) (ts : Nat → Nat)
    (ef : Nat → GoErr) (i0 j now0 : Nat)
    (hop : op (i0 + j) = .returns (ts (i0 + j)) (.error (ef (i0 + j)))) :
    withCircuitBreaker cfg false (rawInvoke op)
        ⟨i0 + j, ⟨.closed, ⟨j, 0, j, 0, j⟩, if cfg.interval = 0 then 0 else now0 + cfg.interval⟩⟩
        now0
      = (⟨i0 + j + 1,
          if cfg.failures ≤ j + 1 then toNewGeneration cfg .opened now0
          else ⟨.closed, ⟨j + 1, 0, j + 1, 0, j + 1⟩,
                if cfg.interval = 0 then 0 else now0 + cfg.interval⟩⟩,
         .ret (.error (ef (i0 + j)))) := by
  have hexp : ¬ ((if cfg.interval = 0 then 0 else now0 + cfg.interval) ≠ 0
      ∧ (if cfg.interval = 0 then 0 else now0 + cfg.interval) < now0) := by
    by_cases hi : cfg.interval = 0 <;> simp [hi] <;> omega
  simp only [withCircuitBreaker, cbExecute, currentState, hexp, if_false, cbRun, rawInvoke,
    rawResult, hop, cbAfter, cbOnFailure, onFailureCounts]
  simp

theorem breaker_closed_phase (cfg : BreakerCfg) (op : Nat → OpBehavior) (ts : Nat → Nat)
    (ef : Nat → GoErr) (hop : ∀ i, op i = .returns (ts i) (.error (ef i)))
    (i0 now0 F : Nat) (hcfg : cfg.failures = F) :
    ∀ j, j < F →
      iterCalls (withCircuitBreaker cfg false (rawInvoke op)) now0 j ⟨i0, initBreaker cfg now0⟩
        = ⟨i0 + j, ⟨.closed, ⟨j, 0, j, 0, j⟩,
            if cfg.interval = 0 then 0 else now0 + cfg.interval⟩⟩ := by
  intro j
  induction j with
  | zero => intro _; rfl
  | succ i ihj =>
    intro hj
    rw [iterCalls, ihj (by omega),
      breaker_fail_step cfg op ts ef i0 i now0 (hop (i0 + i))]
    simp only
    rw [if_neg (show ¬ cfg.failures ≤ i + 1 by omega)]
    rfl

/-- C3: a breaker with failure threshold F at least 1, starting fresh,
transitions to the open state after F consecutive recorded failures, and
until the configured cool-down elapses every further call returns the
open-state error with the world untouched, so the wrapped operation is
not invoked. -/
theorem breaker_trips_after_threshold (cfg : BreakerCfg) (now0 i0 : Nat)
    (op : Nat → OpBehavior) (ts : Nat → Nat) (ef : Nat → GoErr)
    (hop : ∀ i, op i = .returns (ts i) (.error (ef i)))
    (F : Nat) (hF : 1 ≤ F) (hcfg : cfg.failures = F) :
    (iterCalls (withCircuitBreaker cfg false (rawInvoke op)) now0 F ⟨i0, initBreaker cfg now0⟩
       = ⟨i0 + F, ⟨.opened, zeroCounts, now0 + cfg.timeout⟩⟩)
    ∧ ∀ now2, now2 ≤ now0 + cfg.timeout →
        withCircuitBreaker cfg false (rawInvoke op)
            ⟨i0 + F, ⟨.opened, zeroCounts, now0 + cfg.timeout⟩⟩ now2
          = (⟨i0 + F, ⟨.opened, zeroCounts, now0 + cfg.timeout⟩⟩,
             .ret (.error .openState)) := by
  obtain ⟨G, rfl⟩ : ∃ G, F = G + 1 := ⟨F - 1, by omega⟩
  constructor
  · rw [iterCalls,
      breaker_closed_phase cfg op ts ef hop i0 now0 (G + 1) hcfg G (by omega),
      breaker_fail_step cfg op ts ef i0 G now0 (hop (i0 + G))]
    simp only
    rw [if_pos (show cfg.failures ≤ G + 1 by omega)]
    rfl
  · intro now2 h2
    have h := withCircuitBreaker_open_reject cfg false (rawInvoke op)
      ⟨i0 + (G + 1), ⟨.opened, zeroCounts, now0 + cfg.timeout⟩⟩ now2 rfl (by simpa using h2)
    simpa using h

theorem chunkStep_shape (s : List Char) (d d2 : Nat) (s3 : List Char)
    (h : chunkStep s d = some (d2, s3)) : chunkShape s = some s3 := by
  rcases s with _ | ⟨c, rest⟩
  · simp [chunkStep] at h
  · simp only [chunkStep] at h
    simp only [chunkShape]
    split at h
    · simp at h
    split at h
    · simp at h
    split at h
    · simp at h
    next hcond =>
      rw [if_neg hcond]
      split at h
      · simp at h
      next hu =>
        rw [if_neg hu]
        split at h
        · simp at h
        next unit hunit =>
          rw [hunit]
          have hs3 : (fracSplit (List.dropWhile Char.isDigit (c :: rest))).2.2.1.dropWhile
              (fun c => !(isNumChar c)) = s3 := by
            repeat' split at h
            all_goals simp at h
            all_goals exact h.2
          simp [hs3]

theorem parseChunks_grammar (fuel : Nat) : ∀ (s : List Char) (d d2 : Nat),
    parseChunks fuel s d = some d2 → grammarChunks fuel s = true := by
  induction fuel with
  | zero =>
    intro s d d2 h
    simp [parseChunks] at h
  | succ f ih =>
    intro s d d2 h
    rcases s with _ | ⟨c, rest⟩
    · rfl
    · simp only [parseChunks] at h
      rcases hcs : chunkStep (c :: rest) d with _ | ⟨d3, s3⟩
      · rw [hcs] at h
        simp at h
      · rw [hcs] at h
        simp only [grammarChunks, chunkStep_shape _ _ _ _ hcs]
        exact ih s3 d3 d2 h

theorem parseGoDuration_ok_expr (s : String) (d : Int)
    (h : parseGoDuration s = .ok d) : isDurationExpr s = true := by
  simp only [parseGoDuration] at h
  simp only [isDurationExpr]
  split at h
  next h0 => rw [if_pos h0]
  next h0 =>
    rw [if_neg h0]
    split at h
    · simp at h
    next hne =>
      rw [if_neg hne]
      rcases hpc : parseChunks ((stripSign s.data).2.length + 1) (stripSign s.data).2 0
          with _ | dv
      · rw [hpc] at h
        simp at h
      · exact parseChunks_grammar _ _ _ _ hpc

/-- C8: the duration resolver returns zero without error on the empty
string, interprets a bare integer as a count of microseconds, parses
structured duration expressions such as 100ms, 2s and 1000ns, and fails
on every other text (whatever is neither empty, nor a bare integer, nor a
structured duration expression). -/
theorem parseDuration_resolver (s : String) (i : Int) :
    parseDuration "" = .ok 0
    ∧ (parseGoInt s = some i → parseDuration s = .ok (i * 1000))
    ∧ parseDuration "100ms" = .ok 100000000
    ∧ parseDuration "2s" = .ok 2000000000
    ∧ parseDuration "1000ns" = .ok 1000
    ∧ (s ≠ "" → parseGoInt s = none → isDurationExpr s = false →
        exOk (parseDuration s) = false) := by
  refine ⟨rfl, ?_, rfl, rfl, rfl, ?_⟩
  · intro hint
    by_cases hs : s = ""
    · subst hs
      simp [parseGoInt, stripSign] at hint
    · unfold parseDuration
      rw [if_neg hs, hint]
  · intro hs hint hexpr
    unfold parseDuration
    rw [if_neg hs, hint]
    rcases hpd : parseGoDuration s with e | dv
    · rfl
    · exact absurd (parseGoDuration_ok_expr s dv hpd) (by simp [hexpr])

/-! ## Witnesses at concrete inputs -/

theorem newExecutor_composition_witness :
    NewExecutor none (some ⟨0, none, none⟩) (fun _ => .returns 0 (.ok 7))
        ⟨0, initBreaker ⟨1, 0, 5, 2⟩ 0⟩ 0
      = (⟨1, initBreaker ⟨1, 0, 5, 2⟩ 0⟩, .ret (.ok 7)) := by
  have h := (newExecutor_composition none ⟨0, none, none⟩ (fun _ => .returns 0 (.ok 7))
    ⟨0, initBreaker ⟨1, 0, 5, 2⟩ 0⟩ 0).2.2 (by decide) rfl rfl
  simpa using h

theorem retry_invocation_count_witness :
    NewExecutor none (some ⟨0, some ⟨((0 : Nat) : Int), ((3 : Nat) : Int)⟩, none⟩)
        (fun i => if i = 0 then .returns 0 (.error (.opError 9)) else .returns 0 (.ok 5))
        ⟨0, initBreaker ⟨1, 0, 5, 2⟩ 0⟩ 0
      = (⟨2, initBreaker ⟨1, 0, 5, 2⟩ 0⟩, .ret (.ok 5)) := by
  have h := retry_invocation_count 3 2 0 (fun _ => 0) (fun _ => .opError 9) 5 0
    (fun i => if i = 0 then .returns 0 (.error (.opError 9)) else .returns 0 (.ok 5))
    ⟨0, initBreaker ⟨1, 0, 5, 2⟩ 0⟩ 0 (by omega)
    (fun j hj => by
      have hj0 : j = 0 := by omega
      subst hj0
      exact ⟨rfl, rfl⟩)
    rfl
  simpa using h

theorem breaker_trips_after_threshold_witness :
    (iterCalls (withCircuitBreaker ⟨1, 0, 5, 2⟩ false
          (rawInvoke (fun i => .returns 0 (.error (.opError i))))) 0 2
        ⟨0, initBreaker ⟨1, 0, 5, 2⟩ 0⟩
      = ⟨2, ⟨.opened, zeroCounts, 5⟩⟩)
    ∧ withCircuitBreaker ⟨1, 0, 5, 2⟩ false
        (rawInvoke (fun i => .returns 0 (.error (.opError i)))) ⟨2, ⟨.opened, zeroCounts, 5⟩⟩ 3
      = (⟨2, ⟨.opened, zeroCounts, 5⟩⟩, .ret (.error .openState)) := by
  have h := breaker_trips_after_threshold ⟨1, 0, 5, 2⟩ 0 0
    (fun i => .returns 0 (.error (.opError i))) (fun _ => 0) (fun i => .opError i)
    (fun i => rfl) 2 (by omega) rfl
  exact ⟨by simpa using h.1, by simpa using h.2 3 (by decide)⟩

theorem breaker_rejection_short_circuits_retry_witness :
    NewExecutor none (some ⟨0, some ⟨0, 3⟩, some ⟨1, 0, 5, 2⟩⟩) (fun _ => .returns 0 (.ok 0))
        ⟨7, ⟨.opened, zeroCounts, 100⟩⟩ 50
      = (⟨7, ⟨.opened, zeroCounts, 100⟩⟩, .ret (.error .openState))
    ∧ NewExecutor none (some ⟨0, some ⟨0, 3⟩, some ⟨1, 0, 5, 2⟩⟩) (fun _ => .returns 0 (.ok 0))
        ⟨7, ⟨.halfOpen, ⟨5, 0, 0, 0, 0⟩, 0⟩⟩ 60
      = (⟨7, ⟨.halfOpen, ⟨5, 0, 0, 0, 0⟩, 0⟩⟩, .ret (.error .tooManyRequests)) :=
  ⟨(breaker_rejection_short_circuits_retry none 0 ⟨0, 3⟩ ⟨1, 0, 5, 2⟩
      (fun _ => .returns 0 (.ok 0)) ⟨7, ⟨.opened, zeroCounts, 100⟩⟩ 50).1 rfl (by decide),
   (breaker_rejection_short_circuits_retry none 0 ⟨0, 3⟩ ⟨1, 0, 5, 2⟩
      (fun _ => .returns 0 (.ok 0)) ⟨7, ⟨.halfOpen, ⟨5, 0, 0, 0, 0⟩, 0⟩⟩ 60).2 rfl (by decide)⟩

theorem withTimeout_race_witness :
    withTimeout none 10 (fun _ => .returns 3 (.ok 4)) ⟨0, initBreaker ⟨1, 0, 5, 2⟩ 0⟩ 0
      = (⟨1, initBreaker ⟨1, 0, 5, 2⟩ 0⟩, .ret (.ok 4))
    ∧ withTimeout none 10 (fun _ => .returns 10 (.ok 4)) ⟨0, initBreaker ⟨1, 0, 5, 2⟩ 0⟩ 0
      = (⟨1, initBreaker ⟨1, 0, 5, 2⟩ 0⟩, .ret (.error .deadlineExceeded)) :=
  ⟨(withTimeout_race 10 (by omega) (fun _ => .returns 3 (.ok 4))
      ⟨0, initBreaker ⟨1, 0, 5, 2⟩ 0⟩ 0 3 (.ok 4)).1 rfl (by omega),
   (withTimeout_race 10 (by omega) (fun _ => .returns 10 (.ok 4))
      ⟨0, initBreaker ⟨1, 0, 5, 2⟩ 0⟩ 0 10 (.ok 4)).2 rfl (by omega)⟩

theorem withTimeout_absorbs_panic_witness :
    (withTimeout none 10 (fun _ => .panics 3) ⟨0, initBreaker ⟨1, 0, 5, 2⟩ 0⟩ 0).2 ≠ .panic
    ∧ withTimeout none 10 (fun _ => .panics 3) ⟨0, initBreaker ⟨1, 0, 5, 2⟩ 0⟩ 0
      = (⟨1, initBreaker ⟨1, 0, 5, 2⟩ 0⟩, .ret (.error .panicked)) :=
  ⟨(withTimeout_absorbs_panic none 10 (fun _ => .panics 3)
      ⟨0, initBreaker ⟨1, 0, 5, 2⟩ 0⟩ 0 3).1,
   (withTimeout_absorbs_panic none 10 (fun _ => .panics 3)
      ⟨0, initBreaker ⟨1, 0, 5, 2⟩ 0⟩ 0 3).2 rfl (by omega) rfl⟩

theorem provider_policy_total_witness :
    (ProviderM.policy ⟨[], [], [], [("t", ⟨"", "missing", ""⟩)]⟩ "absent" = ⟨0, none, none⟩)
    ∧ (ProviderM.policy ⟨[], [], [], [("t", ⟨"", "missing", ""⟩)]⟩ "t").retry = none
    ∧ NewExecutor none (some ⟨0, none, none⟩) (fun _ => .returns 0 (.error (.opError 1)))
        ⟨0, initBreaker ⟨1, 0, 5, 2⟩ 0⟩ 0
      = (⟨1, initBreaker ⟨1, 0, 5, 2⟩ 0⟩, .ret (.error (.opError 1))) :=
  ⟨(provider_policy_total ⟨[], [], [], [("t", ⟨"", "missing", ""⟩)]⟩ "absent" ⟨"", "", ""⟩
      none (fun _ => .returns 0 (.error (.opError 1))) ⟨0, initBreaker ⟨1, 0, 5, 2⟩ 0⟩ 0).1 rfl,
   ((provider_policy_total ⟨[], [], [], [("t", ⟨"", "missing", ""⟩)]⟩ "t" ⟨"", "missing", ""⟩
      none (fun _ => .returns 0 (.error (.opError 1))) ⟨0, initBreaker ⟨1, 0, 5, 2⟩ 0⟩ 0).2.1
      rfl).1 (by decide) rfl,
   by simpa using (provider_policy_total ⟨[], [], [], [("t", ⟨"", "missing", ""⟩)]⟩ "t"
      ⟨"", "missing", ""⟩ none (fun _ => .returns 0 (.error (.opError 1)))
      ⟨0, initBreaker ⟨1, 0, 5, 2⟩ 0⟩ 0).2.2⟩

theorem parseDuration_resolver_witness :
    parseDuration "250" = .ok (250 * 1000)
    ∧ exOk (parseDuration "12x") = false :=
  ⟨(parseDuration_resolver "250" 250).2.1 rfl,
   (parseDuration_resolver "12x" 0).2.2.2.2.2 (by decide) rfl rfl⟩

end GoResilience
